import Mathlib

/-!
Verification development for the gomill GTP engine core
(`gomill/gtp_states.py` and `gomill/nonblocking_gtp_controller.py`).

The stateful GTP engine (`Gtp_state`) and the nonblocking transport channel
(`Subprocess_gtp_channel`) are embedded shallowly: Python objects become
structures, in-place mutation becomes explicit state passing, and fallible
Python code returns `Except`.  The collaborating modules that are not part
of the excerpt (`boards.py`, `handicap_layout.py`, `gomill_common.py`, the
SGF reader/writer and the argument-parsing helpers of `gtp_engine.py`) are
modelled from the specification's capability contracts; each such
definition is marked `Modelled from the spec:` in its doc comment.
-/

namespace Gomill

/-- A stone colour, `'b'` or `'w'` in the Python source. -/
inductive Colour
  | b
  | w
deriving DecidableEq, Repr

/-- Source `gomill_common.opponent_of` (missing module, behaviour fixed by
its use in `gtp_states.py`): swaps black and white. -/
def opponent_of : Colour → Colour
  | .b => .w
  | .w => .b

/-- A zero-based (row, col) board coordinate pair. -/
abbrev Coords := Nat × Nat

/-- Failure modes of `Board.play`: a Python `ValueError` for an occupied
point, and a Python `IndexError` for an out-of-range index (the latter is
not caught by any `except ValueError` in `gtp_states.py`). -/
inductive BoardErr
  | occupied
  | indexError
deriving DecidableEq, Repr

/-- Modelled from the spec: the external `boards.Board` capability
("fixed side length N; each point is empty or occupied by one of two
colours").  The grid is stored row-major as a list of length `side * side`. -/
structure Board where
  side : Nat
  grid : List (Option Colour)
deriving DecidableEq, Repr

namespace Board

/-- Modelled from the spec: a fresh empty board of the given side length. -/
def empty (side : Nat) : Board :=
  ⟨side, List.replicate (side * side) none⟩

/-- Modelled from the spec: the colour occupying a point, `none` when
vacant or out of range. -/
def get (bd : Board) (r c : Nat) : Option Colour :=
  if r < bd.side ∧ c < bd.side then (bd.grid.getD (r * bd.side + c) none) else none

/-- Helper: overwrite one grid cell. -/
def put (bd : Board) (r c : Nat) (v : Option Colour) : Board :=
  ⟨bd.side, bd.grid.set (r * bd.side + c) v⟩

/-- Modelled from the spec: `is_empty()` pure query. -/
def is_empty (bd : Board) : Bool :=
  bd.grid.all (fun o => o = none)

/-- Modelled from the spec: `list_occupied_points()` pure query, returning
(colour, coords) pairs in row-major order. -/
def list_occupied_points (bd : Board) : List (Colour × Coords) :=
  (List.range bd.side).flatMap (fun r =>
    (List.range bd.side).filterMap (fun c =>
      match bd.get r c with
      | some col => some (col, (r, c))
      | none => none))

/-- The orthogonal in-board neighbours of a point. -/
def neighbours (side : Nat) (p : Coords) : List Coords :=
  let (r, c) := p
  (if 0 < r then [(r - 1, c)] else []) ++
  (if r + 1 < side then [(r + 1, c)] else []) ++
  (if 0 < c then [(r, c - 1)] else []) ++
  (if c + 1 < side then [(r, c + 1)] else [])

/-- Breadth-first flood fill collecting the connected group of stones of
one colour; `fuel` bounds the recursion (`(side*side+1)^2` always
suffices). -/
def floodFill (bd : Board) (colour : Colour) :
    Nat → List Coords → List Coords → List Coords
  | 0, _, visited => visited
  | _ + 1, [], visited => visited
  | fuel + 1, p :: frontier, visited =>
    if p ∈ visited then
      floodFill bd colour fuel frontier visited
    else
      floodFill bd colour fuel
        (frontier ++ (neighbours bd.side p).filter
          (fun q => bd.get q.1 q.2 = some colour))
        (visited ++ [p])

/-- The group of same-coloured stones containing a given stone. -/
def groupOf (bd : Board) (colour : Colour) (p : Coords) : List Coords :=
  floodFill bd colour ((bd.side * bd.side + 1) * (bd.side * bd.side + 1)) [p] []

/-- Whether a set of points has at least one vacant orthogonal neighbour. -/
def hasLiberty (bd : Board) (g : List Coords) : Bool :=
  g.any (fun p => (neighbours bd.side p).any (fun q => bd.get q.1 q.2 = none))

/-- Remove every stone in the given list of points. -/
def removeAll (bd : Board) (pts : List Coords) : Board :=
  pts.foldl (fun b p => b.put p.1 p.2 none) bd

/-- The vacant orthogonal neighbours of a point. -/
def vacantNeighbours (bd : Board) (p : Coords) : List Coords :=
  (neighbours bd.side p).filter (fun q => bd.get q.1 q.2 = none)

/-- Modelled from the spec: `play(row, col, colour)` — "applies capture
rules, returns the single point newly forbidden by the simple-ko rule or
none, and fails ... if the point is occupied"; self-capture is permitted
(per the `Gtp_state` docstring).  The simple-ko point is the point of a
single captured stone when the capturing stone forms a one-stone group
whose only liberty is that point. -/
def play (bd : Board) (r c : Nat) (colour : Colour) :
    Except BoardErr (Board × Option Coords) :=
  if r < bd.side ∧ c < bd.side then
    match bd.get r c with
    | some _ => .error .occupied
    | none =>
      let b1 := bd.put r c (some colour)
      let opp := opponent_of colour
      let captured :=
        ((neighbours bd.side (r, c)).filter
            (fun q => b1.get q.1 q.2 = some opp)).foldl
          (fun acc q =>
            if q ∈ acc then acc
            else
              let g := b1.groupOf opp q
              if b1.hasLiberty g then acc else acc ++ g)
          []
      let b2 := b1.removeAll captured
      let ownGroup := b2.groupOf colour (r, c)
      let b3 := if b2.hasLiberty ownGroup then b2 else b2.removeAll ownGroup
      let ko :=
        match captured with
        | [p] =>
          if ownGroup.length = 1 ∧ b2.vacantNeighbours (r, c) = [p] then
            some p
          else
            none
        | _ => none
      .ok (b3, ko)
  else
    .error .indexError

end Board

/-- Modelled from the spec: `gomill_common.format_vertex` — the standard
GTP vertex notation, a column letter (skipping `I`) followed by the
one-based row number. -/
def columnLetter (c : Nat) : Char :=
  "ABCDEFGHJKLMNOPQRSTUVWXYZ".toList.getD c '?'

/-- Modelled from the spec: format a (row, col) pair as a GTP vertex
string such as `"B2"`. -/
def format_vertex (p : Coords) : String :=
  String.mk [columnLetter p.2] ++ toString (p.1 + 1)

/-- Python's `" ".join(format_vertex p for p in ps)`. -/
def joinVertices (ps : List Coords) : String :=
  String.intercalate " " (ps.map format_vertex)

/-- A Python float argument as the komi handler can receive it: a finite
value (floats are exact rationals), an infinity, or NaN. -/
inductive PyFloat
  | finite (q : ℚ)
  | posInf
  | negInf
  | nan
deriving DecidableEq, Repr

/-- Python exceptions distinguished by `set_komi`'s `try`/`except`. -/
inductive PyErr
  | overflowError
  | valueError
deriving DecidableEq, Repr

/-- Python-2 `int(math.floor(f))`: exact floor for finite floats,
`OverflowError` for infinities, `ValueError` for NaN. -/
def pyIntFloor : PyFloat → Except PyErr Int
  | .finite q => .ok ⌊q⌋
  | .posInf => .error .overflowError
  | .negInf => .error .overflowError
  | .nan => .error .valueError

/-- Python `f < 0` on a float: false for NaN and positive infinity. -/
def pyLtZero : PyFloat → Bool
  | .finite q => decide (q < 0)
  | .posInf => false
  | .negInf => true
  | .nan => false

/-- Source `Gtp_state.set_komi` (as a pure function computing the stored
komi): `k = int(math.floor(f))`, the `except OverflowError` branch picks
the signed bound, and the result is clamped to `[-625, 625]`.  A NaN input
raises `ValueError`, which the handler does not catch. -/
def set_komi (f : PyFloat) : Except PyErr Int :=
  let max_komi : Int := 625
  match pyIntFloor f with
  | .error .overflowError =>
    if pyLtZero f then .ok (-max_komi) else .ok max_komi
  | .error e => .error e
  | .ok k0 =>
    let k1 := if k0 < -max_komi then -max_komi else k0
    let k2 := if k1 > max_komi then max_komi else k1
    .ok k2

/-- Source `History_move`: colour, coords (`none` for a pass), optional
comments and an opaque cookie (modelled as an optional number). -/
structure HistoryMove where
  colour : Colour
  coords : Option Coords
  comments : Option String := none
  cookie : Option Nat := none
deriving DecidableEq, Repr

/-- Source `Game_state`: the immutable snapshot handed to the move
generator. -/
structure GameState where
  size : Nat
  board : Board
  komi : Int
  history_base : Board
  move_history : List HistoryMove
  ko_point : Option Coords
  handicap : Option Nat
  for_regression : Bool
  time_settings : Option (Int × Int × Int)
  time_remaining : Option Int
  canadian_stones_remaining : Option Int
deriving DecidableEq, Repr

/-- Source `Move_generator_result`. -/
structure MoveGenResult where
  resign : Bool := false
  pass_move : Bool := false
  move : Option Coords := none
  claim : Bool := false
  comments : Option String := none
  cookie : Option Nat := none

/-- The externally supplied move generator function. -/
abbrev Gen := GameState → Colour → MoveGenResult

/-- Source `Gtp_state`: the mutable engine state (the two per-colour
entries of `time_status` are separate fields). -/
structure GtpState where
  komi : Int
  time_settings : Option (Int × Int × Int)
  time_status_b : Option Int × Option Int
  time_status_w : Option Int × Option Int
  acceptable_sizes : List Nat
  board_size : Nat
  board : Board
  handicap : Option Nat
  simple_ko_point : Option Coords
  simple_ko_player : Option Colour
  history_base : Board
  move_history : List HistoryMove
deriving DecidableEq, Repr

/-- The `time_status[colour]` lookup. -/
def GtpState.time_status (s : GtpState) : Colour → Option Int × Option Int
  | .b => s.time_status_b
  | .w => s.time_status_w

/-- Source `Gtp_state.reset`. -/
def resetState (s : GtpState) : GtpState :=
  { s with
    board := Board.empty s.board_size
    handicap := none
    simple_ko_point := none
    simple_ko_player := none
    history_base := Board.empty s.board_size
    move_history := [] }

/-- Source `Gtp_state.set_history_base`: installs a new base position and
clears the move history. -/
def set_history_base (s : GtpState) (bd : Board) : GtpState :=
  { s with history_base := bd, move_history := [] }

/-- The loop body of `Gtp_state.reset_to_moves`.  The accumulator mirrors
the Python exactly: `selfKo` is the instance attribute
`self.simple_ko_point` (assigned `None` by the pass branch), while `ko`
and `pl` are the local variables `simple_ko_point` / `simple_ko_player`
that are written back only after the loop.  On a bad move the `ValueError`
(or `IndexError`) propagates with the partially replayed board and the
instance attribute as mutated so far. -/
def rtmLoop (bd : Board) (selfKo : Option Coords) (ko : Option Coords)
    (pl : Option Colour) :
    List HistoryMove →
      Except (Board × Option Coords × BoardErr)
        (Board × Option Coords × Option Colour)
  | [] => .ok (bd, ko, pl)
  | m :: rest =>
    match m.coords with
    | none => rtmLoop bd none ko pl rest
    | some (r, c) =>
      match bd.play r c m.colour with
      | .ok (b1, k) => rtmLoop b1 selfKo k (some (opponent_of m.colour)) rest
      | .error e => .error (bd, selfKo, e)

/-- Source `Gtp_state.reset_to_moves`: restore the board from the history
base and replay the given moves, which become the new move history.  On a
bad move the error carries the partially mutated state (the Python
exception propagates after `self.board` has been partly replayed). -/
def reset_to_moves (s : GtpState) (moves : List HistoryMove) :
    Except (GtpState × BoardErr) GtpState :=
  match rtmLoop s.history_base s.simple_ko_point none none moves with
  | .ok (bd, ko, pl) =>
    .ok { s with
            board := bd
            simple_ko_point := ko
            simple_ko_player := pl
            move_history := moves }
  | .error (bd, selfKo, e) =>
    .error ({ s with board := bd, simple_ko_point := selfKo }, e)

/-- Modelled from the spec: `handicap_layout.handicap_points` — "the
standard point set for `n` stones", failing with `ValueError` when `n` is
out of the valid fixed-handicap range for the size.  The exact point set
is not given by the spec; the classic star points are used, which is
enough for every claim (only their count and the error condition matter). -/
def handicap_points (n side : Nat) : Except Unit (List Coords) :=
  if 2 ≤ n ∧ n ≤ 9 ∧ 7 ≤ side then
    let t := if 13 ≤ side then 3 else 2
    let far := side - 1 - t
    let mid := side / 2
    .ok (([(t, t), (far, far), (t, far), (far, t), (t, mid), (far, mid),
           (mid, t), (mid, far), (mid, mid)] : List Coords).take n)
  else
    .error ()

/-- Modelled from the spec: `handicap_layout.max_free_handicap_for_board_size`
("max_free_for_size").  The spec does not give the formula; one point short
of the whole board is used.  No claim's truth depends on the value, only on
`handle_place_free_handicap` comparing against this function. -/
def max_free_handicap_for_board_size (side : Nat) : Nat :=
  side * side - 1

/-- Playing a list of points as one colour in order, as the loop of
`handle_fixed_handicap` does; a failure propagates the partially mutated
board (the Python exception is not caught there). -/
def playAll (colour : Colour) : Board → List Coords →
    Except (Board × BoardErr) Board
  | bd, [] => .ok bd
  | bd, p :: rest =>
    match bd.play p.1 p.2 colour with
    | .ok (b1, _) => playAll colour b1 rest
    | .error e => .error (bd, e)

/-- The synthetic `Game_state` built on each iteration of
`handle_place_free_handicap` (source lines 317-328). -/
def pfhGameState (size : Nat) (bd : Board) (fk : Int)
    (ts : Option (Int × Int × Int)) : GameState :=
  { size := size
    board := bd
    history_base := bd
    move_history := []
    komi := fk
    ko_point := none
    handicap := none
    time_settings := ts
    time_remaining := none
    canadian_stones_remaining := none
    for_regression := false }

/-- Result of the `handle_place_free_handicap` placement loop: success,
a `GtpError` (occupied point), or an uncaught Python exception; each
carries the board as mutated so far. -/
inductive PfhResult
  | ok (bd : Board) (moves : List Coords)
  | gtpErr (bd : Board) (msg : String)
  | pyCrash (bd : Board)
deriving DecidableEq, Repr

/-- The placement loop of `handle_place_free_handicap` (source lines
313-343): for each iteration call the generator on a synthetic game state
with the rising "fake komi"; a pass consumes the iteration, a resign
consumes it and resets the fake komi, otherwise the suggested point is
played as black (an occupied point is a `GtpError` naming the vertex; a
missing move or out-of-range point is an uncaught Python exception). -/
def pfhLoop (gen : Gen) (ts : Option (Int × Int × Int)) (size : Nat) :
    Nat → Board → List Coords → Int → PfhResult
  | 0, bd, moves, _ => .ok bd moves
  | i + 1, bd, moves, fk =>
    let generated := gen (pfhGameState size bd fk ts) .b
    if generated.pass_move then
      pfhLoop gen ts size i bd moves fk
    else if generated.resign then
      pfhLoop gen ts size i bd moves 0
    else
      let fk1 := min (fk + 5) ((size * size : Int) - 2)
      match generated.move with
      | none => .pyCrash bd
      | some (row, col) =>
        match bd.play row col .b with
        | .ok (b1, _) => pfhLoop gen ts size i b1 (moves ++ [(row, col)]) fk1
        | .error .occupied =>
          .gtpErr bd ("engine error: tried to play " ++ format_vertex (row, col))
        | .error .indexError => .pyCrash bd

/-- Companion measure for `pfhLoop`: how many of the iterations actually
performed are consumed by a pass or resign result (and so place no
stone). -/
def pfhSkips (gen : Gen) (ts : Option (Int × Int × Int)) (size : Nat) :
    Nat → Board → Int → Nat
  | 0, _, _ => 0
  | i + 1, bd, fk =>
    let generated := gen (pfhGameState size bd fk ts) .b
    if generated.pass_move then
      1 + pfhSkips gen ts size i bd fk
    else if generated.resign then
      1 + pfhSkips gen ts size i bd 0
    else
      let fk1 := min (fk + 5) ((size * size : Int) - 2)
      match generated.move with
      | none => 0
      | some (row, col) =>
        match bd.play row col .b with
        | .ok (b1, _) => pfhSkips gen ts size i b1 fk1
        | .error _ => 0

/-- The `Game_state` assembled by `Gtp_state._handle_genmove` (source
lines 378-392): `ko_point` is passed only when a simple-ko point exists
and its banned player is the colour to move. -/
def buildGameState (s : GtpState) (colour : Colour) (for_regression : Bool) :
    GameState :=
  { size := s.board_size
    board := s.board
    history_base := s.history_base
    move_history := s.move_history
    komi := s.komi
    for_regression := for_regression
    ko_point :=
      if s.simple_ko_point.isSome ∧ s.simple_ko_player = some colour then
        s.simple_ko_point
      else
        none
    handicap := s.handicap
    time_settings := s.time_settings
    time_remaining := (s.time_status colour).1
    canadian_stones_remaining := (s.time_status colour).2 }

instance {ε α : Type} [DecidableEq ε] [DecidableEq α] :
    DecidableEq (Except ε α) := fun x y =>
  match x, y with
  | .ok a, .ok b =>
    if h : a = b then isTrue (congrArg Except.ok h)
    else isFalse (fun hh => h (by injection hh))
  | .ok _, .error _ => isFalse (fun hh => Except.noConfusion hh)
  | .error _, .ok _ => isFalse (fun hh => Except.noConfusion hh)
  | .error e, .error f =>
    if h : e = f then isTrue (congrArg Except.error h)
    else isFalse (fun hh => h (by injection hh))

/-- Data extracted from a parsed SGF file, as `handle_loadsgf` consumes it
through the external SGF capability: the size, the outcomes of
`get_komi()` and `get_handicap()` (each may raise `ValueError`), and the
outcome of `get_setup_and_moves()` (the setup board plus raw moves, or a
`ValueError` whose text becomes the GTP error). -/
structure SgfData where
  size : Nat
  komi : Except Unit PyFloat
  handicap : Except Unit (Option Nat)
  setup : Except String (Board × List (Colour × Option Coords))
deriving DecidableEq, Repr

/-- A loadsgf input: either the open/read/parse step fails ("cannot load
file"), or it yields parsed SGF data. -/
inductive SgfFile
  | unreadable
  | parsed (d : SgfData)
deriving DecidableEq, Repr

/-- The GTP state-machine commands, with arguments already parsed by the
dispatcher's `interpret_*` helpers (a missing required argument is
reported by `report_bad_arguments` before any handler touches state, so it
is not represented).  `savesgf`'s external serialization is summarised by
whether its `KEY=value` tokens are all well-formed. -/
inductive Cmd
  | boardsize (n : Nat)
  | clear_board
  | komi (f : PyFloat)
  | fixed_handicap (n : Nat)
  | set_free_handicap (vs : List Coords)
  | place_free_handicap (n : Nat)
  | play (colour : Colour) (v : Option Coords)
  | genmove (colour : Colour)
  | genmove_claim (colour : Colour)
  | reg_genmove (colour : Colour)
  | undo
  | showboard
  | loadsgf (file : SgfFile) (move_number : Option Int)
  | explain_last_move
  | savesgf (argsOK : Bool)
  | time_left (colour : Colour) (time stones : Int)
  | time_settings (m bt bs : Int)

/-- The outcome of one command: a successful response string, a
`GtpError` with its message, or an uncaught Python exception (which would
kill the engine process). -/
inductive Resp
  | ok (out : String)
  | err (msg : String)
  | crash
deriving DecidableEq, Repr

/-- Source `Gtp_state.handle_boardsize` (argument already parsed). -/
def handle_boardsize (s : GtpState) (n : Nat) : GtpState × Resp :=
  if n ∈ s.acceptable_sizes then
    (resetState { s with board_size := n }, .ok "")
  else
    (s, .err "unacceptable size")

/-- Source `Gtp_state.handle_clear_board`. -/
def handle_clear_board (s : GtpState) : GtpState × Resp :=
  (resetState s, .ok "")

/-- Source `Gtp_state.handle_komi`: delegates to `set_komi`; a NaN input
makes `set_komi` raise `ValueError`, which nothing catches. -/
def handle_komi (s : GtpState) (f : PyFloat) : GtpState × Resp :=
  match set_komi f with
  | .ok k => ({ s with komi := k }, .ok "")
  | .error _ => (s, .crash)

/-- Source `Gtp_state.handle_fixed_handicap`. -/
def handle_fixed_handicap (s : GtpState) (n : Nat) : GtpState × Resp :=
  if s.board.is_empty then
    match handicap_points n s.board_size with
    | .error _ => (s, .err "invalid number of stones")
    | .ok points =>
      match playAll .b s.board points with
      | .error (bd, _) => ({ s with board := bd }, .crash)
      | .ok bd =>
        ({ s with
             board := bd
             simple_ko_point := none
             handicap := some n
             history_base := bd
             move_history := [] },
         .ok (joinVertices points))
  else
    (s, .err "board not empty")

/-- The loop of `handle_set_free_handicap`: `interpret_vertex` (checking
the vertex against the board size) and then `board.play` per vertex, a
`GtpError` naming the vertex when it is occupied; earlier stones stay on
the board. -/
def sfhLoop : Board → Nat → List Coords →
    Except (Board × String) Board
  | bd, _, [] => .ok bd
  | bd, size, v :: rest =>
    if v.1 < size ∧ v.2 < size then
      match bd.play v.1 v.2 .b with
      | .ok (b1, _) => sfhLoop b1 size rest
      | .error _ =>
        .error (bd, "engine error: " ++ format_vertex v ++ " is occupied")
    else
      .error (bd, "invalid vertex")

/-- Source `Gtp_state.handle_set_free_handicap`. -/
def handle_set_free_handicap (s : GtpState) (vs : List Coords) :
    GtpState × Resp :=
  if vs.length < 2 then
    (s, .err "invalid arguments")
  else
    match sfhLoop s.board s.board_size vs with
    | .error (bd, msg) => ({ s with board := bd }, .err msg)
    | .ok bd =>
      ({ s with
           board := bd
           history_base := bd
           move_history := []
           handicap := some vs.length
           simple_ko_point := none },
       .ok "")

/-- Source `Gtp_state.handle_place_free_handicap`. -/
def handle_place_free_handicap (gen : Gen) (s : GtpState) (n : Nat) :
    GtpState × Resp :=
  let max_points := max_free_handicap_for_board_size s.board_size
  if 2 ≤ n ∧ n ≤ max_points then
    if s.board.is_empty then
      let number_of_stones := if n = max_points then max_points - 1 else n
      match pfhLoop gen s.time_settings s.board_size number_of_stones
          s.board [] 0 with
      | .ok bd moves =>
        ({ s with
             board := bd
             simple_ko_point := none
             handicap := some number_of_stones
             history_base := bd
             move_history := [] },
         .ok (joinVertices moves))
      | .gtpErr bd msg => ({ s with board := bd }, .err msg)
      | .pyCrash bd => ({ s with board := bd }, .crash)
    else
      (s, .err "board not empty")
  else
    (s, .err "invalid number of stones")

/-- Source `Gtp_state.handle_play`: a pass clears the ko point and records
a pass move; otherwise the move is played, the ko point and its banned
player updated, and the move recorded; an occupied point is the GTP error
"illegal move" (an out-of-range vertex is already rejected by
`interpret_vertex`). -/
def handle_play (s : GtpState) (colour : Colour) (v : Option Coords) :
    GtpState × Resp :=
  match v with
  | none =>
    ({ s with
         simple_ko_point := none
         move_history := s.move_history ++ [{ colour := colour, coords := none }] },
     .ok "")
  | some (r, c) =>
    if r < s.board_size ∧ c < s.board_size then
      match s.board.play r c colour with
      | .ok (b1, k) =>
        ({ s with
             board := b1
             simple_ko_point := k
             simple_ko_player := some (opponent_of colour)
             move_history :=
               s.move_history ++ [{ colour := colour, coords := some (r, c) }] },
         .ok "")
      | .error _ => (s, .err "illegal move")
    else
      (s, .err "invalid vertex")

/-- Source `Gtp_state._handle_genmove`, the common implementation of
`genmove`, `gomill-genmove_claim` and `reg_genmove`. -/
def handle_genmove_common (gen : Gen) (s : GtpState) (colour : Colour)
    (for_regression allow_claim : Bool) : GtpState × Resp :=
  let game_state := buildGameState s colour for_regression
  let generated := gen game_state colour
  if allow_claim ∧ generated.claim then
    (s, .ok "claim")
  else if generated.resign then
    (s, .ok "resign")
  else if generated.pass_move then
    if for_regression then
      (s, .ok "pass")
    else
      ({ s with
           move_history :=
             s.move_history ++
               [{ colour := colour, coords := none,
                  comments := generated.comments, cookie := generated.cookie }] },
       .ok "pass")
  else
    match generated.move with
    | none => (s, .crash)
    | some (row, col) =>
      let vertex := format_vertex (row, col)
      if for_regression then
        (s, .ok vertex)
      else
        match s.board.play row col colour with
        | .ok (b1, k) =>
          ({ s with
               board := b1
               simple_ko_point := k
               simple_ko_player := some (opponent_of colour)
               move_history :=
                 s.move_history ++
                   [{ colour := colour, coords := some (row, col),
                      comments := generated.comments,
                      cookie := generated.cookie }] },
           .ok vertex)
        | .error .occupied =>
          (s, .err ("engine error: tried to play " ++ vertex))
        | .error .indexError => (s, .crash)

/-- Source `Gtp_state.handle_undo`. -/
def handle_undo (s : GtpState) : GtpState × Resp :=
  if s.move_history = [] then
    (s, .err "cannot undo")
  else
    match reset_to_moves s s.move_history.dropLast with
    | .ok s1 => (s1, .ok "")
    | .error (s1, .occupied) => (s1, .err "corrupt history")
    | .error (s1, .indexError) => (s1, .crash)

/-- The move list `handle_loadsgf` replays: the parsed SGF moves as
`History_move`s, truncated to the first `max(0, move_number - 1)` moves
when a move number is given ("the position before move_number"). -/
def sgfHistory (raw_sgf_moves : List (Colour × Option Coords))
    (mn : Option Int) : List HistoryMove :=
  let sgf_moves := raw_sgf_moves.map
    (fun m => ({ colour := m.1, coords := m.2 } : HistoryMove))
  match mn with
  | none => sgf_moves
  | some m => sgf_moves.take (max 0 (m - 1)).toNat

/-- Source `Gtp_state.handle_loadsgf`: reads the file (failures become
"cannot load file"), checks the size, installs `board_size`, parses komi,
handicap (a bad handicap is tolerated) and setup/moves, truncates the move
list to "the position before move_number", then installs the new history
base and replays; on a replay `ValueError` it restores the previous
history base and move history, reporting "bad move in file" (or the
combined "bad move in file and corrupt history" when the restoring replay
also fails). -/
def handle_loadsgf (s : GtpState) (file : SgfFile) (mn : Option Int) :
    GtpState × Resp :=
  match file with
  | .unreadable => (s, .err "cannot load file")
  | .parsed d =>
    if d.size ∈ s.acceptable_sizes then
      let s1 := { s with board_size := d.size }
      match d.komi with
      | .error _ => (s1, .err "bad komi")
      | .ok komiF =>
        let handicap1 : Option Nat :=
          match d.handicap with
          | .error _ => none
          | .ok h => h
        match d.setup with
        | .error e => (s1, .err e)
        | .ok (sgf_board, raw_sgf_moves) =>
          let new_move_history := sgfHistory raw_sgf_moves mn
          let old_history_base := s1.history_base
          let old_move_history := s1.move_history
          match reset_to_moves (set_history_base s1 sgf_board)
              new_move_history with
          | .ok s2 =>
            match set_komi komiF with
            | .ok k => ({ s2 with komi := k, handicap := handicap1 }, .ok "")
            | .error _ => (s2, .crash)
          | .error (sp, .indexError) => (sp, .crash)
          | .error (sp, .occupied) =>
            match reset_to_moves (set_history_base sp old_history_base)
                old_move_history with
            | .ok s3 => (s3, .err "bad move in file")
            | .error (sp2, .occupied) =>
              (sp2, .err "bad move in file and corrupt history")
            | .error (sp2, .indexError) => (sp2, .crash)
    else
      (s, .err "unacceptable size")

/-- Source `Gtp_state.handle_time_left`: a stones value of 0 is stored as
"unset". -/
def handle_time_left (s : GtpState) (colour : Colour) (t st : Int) :
    GtpState × Resp :=
  let entry := (some t, if st = 0 then none else some st)
  match colour with
  | .b => ({ s with time_status_b := entry }, .ok "")
  | .w => ({ s with time_status_w := entry }, .ok "")

/-- Source `Gtp_state.handle_time_settings`. -/
def handle_time_settings (s : GtpState) (m bt bs : Int) : GtpState × Resp :=
  ({ s with time_settings := some (m, bt, bs) }, .ok "")

/-- Source `Gtp_state.handle_explain_last_move`: the comment of the last
history entry (the rendering of Python `None` is immaterial here). -/
def handle_explain_last_move (s : GtpState) : GtpState × Resp :=
  match s.move_history.getLast? with
  | some m => (s, .ok (m.comments.getD ""))
  | none => (s, .ok "")

/-- Source `Gtp_state.handle_savesgf`: the serialization itself is
external and touches no engine state; a malformed `KEY=value` token is
reported as bad arguments before the file is written. -/
def handle_savesgf (s : GtpState) (argsOK : Bool) : GtpState × Resp :=
  if argsOK then (s, .ok "") else (s, .err "invalid arguments")

/-- Source `Gtp_state.handle_showboard` (the rendering is external and
reads only the board). -/
def handle_showboard (s : GtpState) : GtpState × Resp :=
  (s, .ok "")

/-- One step of the GTP state machine: dispatch a command to its handler,
as `get_handlers`/`get_time_handlers` wire them. -/
def execCmd (gen : Gen) (s : GtpState) : Cmd → GtpState × Resp
  | .boardsize n => handle_boardsize s n
  | .clear_board => handle_clear_board s
  | .komi f => handle_komi s f
  | .fixed_handicap n => handle_fixed_handicap s n
  | .set_free_handicap vs => handle_set_free_handicap s vs
  | .place_free_handicap n => handle_place_free_handicap gen s n
  | .play colour v => handle_play s colour v
  | .genmove colour => handle_genmove_common gen s colour false false
  | .genmove_claim colour => handle_genmove_common gen s colour false true
  | .reg_genmove colour => handle_genmove_common gen s colour true false
  | .undo => handle_undo s
  | .showboard => handle_showboard s
  | .loadsgf file mn => handle_loadsgf s file mn
  | .explain_last_move => handle_explain_last_move s
  | .savesgf argsOK => handle_savesgf s argsOK
  | .time_left colour t st => handle_time_left s colour t st
  | .time_settings m bt bs => handle_time_settings s m bt bs

/-- Run a sequence of commands, keeping the state each handler leaves
behind (the dispatcher reports `GtpError`s to the controller and carries
on). -/
def execList (gen : Gen) (s : GtpState) (cmds : List Cmd) : GtpState :=
  cmds.foldl (fun st c => (execCmd gen st c).1) s

/-- Python `min` over a nonempty collection (`None` models the
`ValueError` on an empty one). -/
def pyMin : List Nat → Option Nat
  | [] => none
  | x :: xs => some (xs.foldl min x)

/-- Source `Gtp_state.__init__`: komi 0, no time settings, empty time
status, acceptable sizes defaulting to {19}, board size the minimum
acceptable size, then a full reset. -/
def initState (acceptable_sizes : Option (List Nat)) : Except Unit GtpState :=
  let base (sizes : List Nat) (size : Nat) : GtpState :=
    resetState
      { komi := 0
        time_settings := none
        time_status_b := (none, none)
        time_status_w := (none, none)
        acceptable_sizes := sizes
        board_size := size
        board := Board.empty size
        handicap := none
        simple_ko_point := none
        simple_ko_player := none
        history_base := Board.empty size
        move_history := [] }
  match acceptable_sizes with
  | none => .ok (base [19] 19)
  | some l =>
    match pyMin l with
    | none => .error ()
    | some m => .ok (base l m)

/-! ## Board-replay abstractions used by the theorems -/

/-- The board produced by replaying a move list from a base position,
ignoring ko bookkeeping; `none` when some move fails.  This is the
board-level content of `reset_to_moves`. -/
def boardReplay : Board → List HistoryMove → Option Board
  | bd, [] => some bd
  | bd, m :: rest =>
    match m.coords with
    | none => boardReplay bd rest
    | some (r, c) =>
      match bd.play r c m.colour with
      | .ok (b1, _) => boardReplay b1 rest
      | .error _ => none

/-- The replay semantics asserted by the specification's invariant
(claim C2), following the spec's words: starting from the history base, a
pass clears the ko ban, and a non-pass move sets the ko ban to the point
returned by `play` and its owner to the mover's opponent.  This matches
what `handle_play` does live; it is to be compared with `reset_to_moves`. -/
def liveReplay : Board → Option Coords → Option Colour → List HistoryMove →
    Option (Board × Option Coords × Option Colour)
  | bd, ko, pl, [] => some (bd, ko, pl)
  | bd, _, pl, m :: rest =>
    match m.coords with
    | none => liveReplay bd none pl rest
    | some (r, c) =>
      match bd.play r c m.colour with
      | .ok (b1, k) => liveReplay b1 k (some (opponent_of m.colour)) rest
      | .error _ => none

/-! ## Transport channel (`nonblocking_gtp_controller.py`)

The response-stream state of `Subprocess_gtp_channel` is pure once the
pipe reads are given as data: `response_data` is the line buffer,
`reads` the successive non-error results of `response_pipe.read()` (an
empty read marks end-of-stream, setting `seen_eof`), and `seen_eof` the
flag.  Draining the diagnostic pipe (`_handle_error_data`) touches neither
`response_data` nor `seen_eof`, so diagnostic events are omitted. -/

/-- Python `str.find("\n")`: the index of the first newline, if any. -/
def findNewline : List Char → Option Nat
  | [] => none
  | c :: rest =>
    if c = '\n' then some 0
    else
      match findNewline rest with
      | some i => some (i + 1)
      | none => none

/-- Source `Subprocess_gtp_channel.get_response_line`, with the event loop
unrolled over the list of pending reads: if a complete line is buffered,
return it (consuming it); else if end-of-stream was seen, return the
buffer *without consuming it*; else absorb the next read (an empty read
sets `seen_eof`).  `none` models blocking forever in `select` because no
more data will arrive. -/
def grlAux : List (List Char) → List Char → Bool →
    Option (List Char × List Char × List (List Char) × Bool)
  | reads, buf, eof =>
    match findNewline buf with
    | some i => some (buf.take (i + 1), buf.drop (i + 1), reads, eof)
    | none =>
      if eof then
        some (buf, buf, reads, eof)
      else
        match reads with
        | [] => none
        | r :: rest =>
          if r = [] then grlAux rest buf true
          else grlAux rest (buf ++ r) eof

/-- The lines returned by `k` successive `get_response_line()` calls. -/
def runCalls : Nat → List (List Char) → List Char → Bool → List (List Char)
  | 0, _, _, _ => []
  | k + 1, reads, buf, eof =>
    match grlAux reads buf eof with
    | none => []
    | some (line, buf1, reads1, eof1) => line :: runCalls k reads1 buf1 eof1

/-- A found newline index is a valid index. -/
theorem findNewline_lt {s : List Char} {i : Nat} (h : findNewline s = some i) :
    i < s.length := by
  induction s generalizing i with
  | nil => simp [findNewline] at h
  | cons c cs ih =>
    simp only [findNewline] at h
    by_cases hc : c = '\n'
    · simp only [hc, if_true] at h
      cases h
      simp
    · simp only [hc, if_false] at h
      cases hf : findNewline cs with
      | none => simp [hf] at h
      | some j =>
        simp only [hf] at h
        cases h
        have := ih hf
        simp only [List.length_cons]
        omega

/-- Specification-side splitter: the newline-terminated lines of a byte
sequence (each including its `'\n'`) and the unterminated remainder. -/
def specLines (s : List Char) : List (List Char) × List Char :=
  match h : findNewline s with
  | none => ([], s)
  | some i =>
    let rest := specLines (s.drop (i + 1))
    (s.take (i + 1) :: rest.1, rest.2)
termination_by s.length
decreasing_by
  have hi := findNewline_lt h
  simp only [List.length_drop]
  omega

/-! ## Derived notions used to state the claims -/

/-- The board-level replay invariant: replaying the move history from the
history base succeeds and reproduces the current board. -/
def BRep (s : GtpState) : Prop :=
  boardReplay s.history_base s.move_history = some s.board

/-- Run a sequence of `play` commands. -/
def applyPlays (gen : Gen) (s : GtpState)
    (ps : List (Colour × Option Coords)) : GtpState :=
  execList gen s (ps.map (fun p => Cmd.play p.1 p.2))

/-- Apply the `undo` command `n` times. -/
def undoN (gen : Gen) : Nat → GtpState → GtpState
  | 0, s => s
  | n + 1, s => undoN gen n (execCmd gen s .undo).1

/-- The stone count `handle_place_free_handicap` actually requests from
its loop: the argument, reduced by one when it equals the maximum. -/
def effectiveStones (size n : Nat) : Nat :=
  if n = max_free_handicap_for_board_size size then
    max_free_handicap_for_board_size size - 1
  else
    n

/-- The commands whose handlers touch no state before any point where they
can raise a `GtpError` (every command except `loadsgf`,
`set_free_handicap`, `place_free_handicap` and `undo`). -/
def revertsOnError : Cmd → Bool
  | .loadsgf _ _ => false
  | .set_free_handicap _ => false
  | .place_free_handicap _ => false
  | .undo => false
  | _ => true

/-! ## Concrete data used by witnesses and counterexamples -/

/-- A move generator that always passes. -/
def genPass : Gen := fun _ _ => { pass_move := true }

/-- The freshly initialised engine state for given sizes and board size
(the value `__init__` builds before `reset`, then reset). -/
def freshState (sizes : List Nat) (size : Nat) : GtpState :=
  resetState
    { komi := 0
      time_settings := none
      time_status_b := (none, none)
      time_status_w := (none, none)
      acceptable_sizes := sizes
      board_size := size
      board := Board.empty size
      handicap := none
      simple_ko_point := none
      simple_ko_player := none
      history_base := Board.empty size
      move_history := [] }

/-- A fresh engine accepting only size 5. -/
def exSt5 : GtpState := freshState [5] 5

/-- A fresh engine accepting sizes 5 and 9 (board size 5, the minimum). -/
def exSt59 : GtpState := freshState [5, 9] 5

/-- A command sequence that builds a ko on the 5x5 board (black captures
at (1,2), banning (1,1)), passes, plays elsewhere, and undoes the last
move.  After the `undo`, `reset_to_moves` has replayed a history whose
last move is the pass. -/
def c2cmds : List Cmd :=
  [ .play .b (some (0, 1)), .play .b (some (1, 0)), .play .b (some (2, 1)),
    .play .w (some (0, 2)), .play .w (some (2, 2)), .play .w (some (1, 3)),
    .play .w (some (1, 1)), .play .b (some (1, 2)),
    .play .b none,
    .play .w (some (4, 4)),
    .undo ]

/-- A board built by placing the given stones on an empty board. -/
def boardOfStones (side : Nat) (stones : List (Colour × Coords)) : Board :=
  stones.foldl (fun b p => b.put p.2.1 p.2.2 (some p.1)) (Board.empty side)

/-- The board reached by `c2cmds` (and by replaying the surviving
history): the ko shape with the white stone at (1, 1) captured. -/
def c2board : Board :=
  boardOfStones 5
    [(.b, (0, 1)), (.w, (0, 2)), (.b, (1, 0)), (.b, (1, 2)), (.w, (1, 3)),
     (.b, (2, 1)), (.w, (2, 2))]

/-- The move history surviving the `undo` of `c2cmds`: the eight stone
placements followed by the pass. -/
def c2hist : List HistoryMove :=
  [⟨.b, some (0, 1), none, none⟩, ⟨.b, some (1, 0), none, none⟩,
   ⟨.b, some (2, 1), none, none⟩, ⟨.w, some (0, 2), none, none⟩,
   ⟨.w, some (2, 2), none, none⟩, ⟨.w, some (1, 3), none, none⟩,
   ⟨.w, some (1, 1), none, none⟩, ⟨.b, some (1, 2), none, none⟩,
   ⟨.b, none, none, none⟩]

/-- The engine state after running `c2cmds` from a fresh size-5 engine,
written out: the `undo`'s `reset_to_moves` left the stale simple-ko point
(1, 1) even though the replayed history ends with a pass. -/
def c2finalLit : GtpState :=
  { komi := 0, time_settings := none, time_status_b := (none, none),
    time_status_w := (none, none), acceptable_sizes := [5], board_size := 5,
    board := c2board, handicap := none,
    simple_ko_point := some (1, 1), simple_ko_player := some .w,
    history_base := Board.empty 5, move_history := c2hist }

/-- The setup board used by the loadsgf counterexample: a size-9 board
with one black setup stone at (0, 0). -/
def c1sb : Board := (Board.empty 9).put 0 0 (some .b)

/-- Parsed SGF data of size 9 whose setup places a black stone at (0, 0)
and whose single move plays on that same occupied point, so the replay
fails. -/
def c1data : SgfData :=
  { size := 9
    komi := .ok (.finite 0)
    handicap := .ok none
    setup := .ok (c1sb, [(.b, some (0, 0))]) }

/-- The partially mutated state inside `handle_loadsgf` when the replay
of `c1data`'s move fails on `exSt59`: `board_size` already 9, the setup
board installed as history base and copied to the board, history cleared. -/
def c1sp : GtpState :=
  { komi := 0, time_settings := none, time_status_b := (none, none),
    time_status_w := (none, none), acceptable_sizes := [5, 9], board_size := 9,
    board := c1sb, handicap := none,
    simple_ko_point := none, simple_ko_player := none,
    history_base := c1sb, move_history := [] }

/-- The state `handle_loadsgf` leaves after the failed load of `c1data`
on `exSt59`: everything restored except `board_size`, which keeps the
SGF's size 9. -/
def c1s3 : GtpState := { exSt59 with board_size := 9 }

/-- A size-5 state with a simple-ko ban at (1, 1) owned by white. -/
def c8st : GtpState :=
  { exSt5 with simple_ko_point := some (1, 1), simple_ko_player := some .w }

/-! ## Replay lemmas -/

/-- Board replay distributes over appending move lists. -/
theorem boardReplay_append : ∀ (l1 l2 : List HistoryMove) (bd : Board),
    boardReplay bd (l1 ++ l2) =
      (boardReplay bd l1).bind (fun b => boardReplay b l2)
  | [], l2, bd => by simp [boardReplay]
  | m :: rest, l2, bd => by
    simp only [List.cons_append, boardReplay]
    cases hm : m.coords with
    | none => exact boardReplay_append rest l2 bd
    | some rc =>
      obtain ⟨r, c⟩ := rc
      cases hp : bd.play r c m.colour with
      | ok pr =>
        obtain ⟨b1, k⟩ := pr
        simp only [hp]
        exact boardReplay_append rest l2 b1
      | error e => simp [hp]

/-- The board computed by the `reset_to_moves` loop is exactly the board
replay; the ko bookkeeping does not influence it, and the loop fails
exactly when the board replay fails. -/
theorem boardReplay_eq_rtm : ∀ (ms : List HistoryMove) (bd : Board)
    (sk k0 : Option Coords) (p0 : Option Colour),
    boardReplay bd ms =
      (match rtmLoop bd sk k0 p0 ms with
       | .ok (b, _, _) => some b
       | .error _ => none)
  | [], bd, sk, k0, p0 => by simp [boardReplay, rtmLoop]
  | m :: rest, bd, sk, k0, p0 => by
    simp only [boardReplay, rtmLoop]
    cases hm : m.coords with
    | none => exact boardReplay_eq_rtm rest bd none k0 p0
    | some rc =>
      obtain ⟨r, c⟩ := rc
      cases hp : bd.play r c m.colour with
      | ok pr =>
        obtain ⟨b1, k⟩ := pr
        simp only [hp]
        exact boardReplay_eq_rtm rest b1 sk k (some (opponent_of m.colour))
      | error e => simp [hp]

/-- When the board replay of a move list succeeds, `rtmLoop` succeeds on
it with that board (whatever the ko accumulators are). -/
theorem rtmLoop_of_boardReplay (ms : List HistoryMove) (bd b2 : Board)
    (sk k0 : Option Coords) (p0 : Option Colour)
    (h : boardReplay bd ms = some b2) :
    ∃ k p, rtmLoop bd sk k0 p0 ms = .ok (b2, k, p) := by
  rw [boardReplay_eq_rtm ms bd sk k0 p0] at h
  cases hr : rtmLoop bd sk k0 p0 ms with
  | ok t =>
    obtain ⟨b, k, p⟩ := t
    simp only [hr, Option.some.injEq] at h
    exact ⟨k, p, by rw [h]⟩
  | error e =>
    simp only [hr] at h
    cases h

/-- A `play` command preserves the replay invariant and the history
base (both on success and on a GTP error). -/
theorem BRep_handle_play (s : GtpState) (colour : Colour) (v : Option Coords)
    (h : BRep s) :
    BRep (handle_play s colour v).1 ∧
    (handle_play s colour v).1.history_base = s.history_base := by
  unfold BRep at h ⊢
  cases v with
  | none =>
    simp only [handle_play]
    refine ⟨?_, by trivial⟩
    rw [boardReplay_append, h]
    simp [boardReplay]
  | some rc =>
    obtain ⟨r, c⟩ := rc
    simp only [handle_play]
    by_cases hb : r < s.board_size ∧ c < s.board_size
    · rw [if_pos hb]
      cases hp : s.board.play r c colour with
      | ok pr =>
        obtain ⟨b1, k⟩ := pr
        simp only [hp]
        refine ⟨?_, by trivial⟩
        rw [boardReplay_append, h]
        simp [boardReplay, hp]
      | error e =>
        simp only [hp]
        exact ⟨h, by trivial⟩
    · rw [if_neg hb]
      exact ⟨h, by trivial⟩

/-- A sequence of `play` commands preserves the replay invariant and the
history base. -/
theorem BRep_applyPlays (gen : Gen) :
    ∀ (ps : List (Colour × Option Coords)) (s : GtpState), BRep s →
      BRep (applyPlays gen s ps) ∧
      (applyPlays gen s ps).history_base = s.history_base
  | [], s, h => ⟨h, rfl⟩
  | p :: ps, s, h => by
    have step := BRep_handle_play s p.1 p.2 h
    have ih := BRep_applyPlays gen ps (handle_play s p.1 p.2).1 step.1
    have : applyPlays gen s (p :: ps) =
        applyPlays gen (handle_play s p.1 p.2).1 ps := rfl
    rw [this]
    exact ⟨ih.1, ih.2.trans step.2⟩

/-- In a state satisfying the replay invariant with nonempty history,
`undo` succeeds: it drops the last move, keeps the history base, and
preserves the invariant. -/
theorem undo_of_BRep (gen : Gen) (s : GtpState) (h : BRep s)
    (hne : s.move_history ≠ []) :
    (execCmd gen s .undo).1.move_history = s.move_history.dropLast ∧
    (execCmd gen s .undo).1.history_base = s.history_base ∧
    BRep (execCmd gen s .undo).1 := by
  unfold BRep at h
  have hsplit : s.move_history.dropLast ++ [s.move_history.getLast hne] =
      s.move_history := List.dropLast_append_getLast hne
  rw [← hsplit, boardReplay_append] at h
  cases hpre : boardReplay s.history_base s.move_history.dropLast with
  | none => rw [hpre] at h; cases h
  | some B =>
    rw [hpre] at h
    obtain ⟨k, p, hr⟩ := rtmLoop_of_boardReplay s.move_history.dropLast
      s.history_base B s.simple_ko_point none none hpre
    have hexec : execCmd gen s .undo = handle_undo s := rfl
    rw [hexec]
    unfold handle_undo
    rw [if_neg hne]
    unfold reset_to_moves
    rw [hr]
    exact ⟨rfl, rfl, hpre⟩

/-- Applying `undo` once per recorded move from an invariant-satisfying
state empties the history and leaves the board equal to the (unchanged)
history base. -/
theorem undoN_restores (gen : Gen) : ∀ (n : Nat) (s : GtpState), BRep s →
    s.move_history.length = n →
    (undoN gen n s).board = (undoN gen n s).history_base ∧
    (undoN gen n s).history_base = s.history_base ∧
    (undoN gen n s).move_history = []
  | 0, s, h, hlen => by
    have hnil : s.move_history = [] := List.length_eq_zero.mp hlen
    unfold BRep at h
    rw [hnil] at h
    simp only [boardReplay, Option.some.injEq] at h
    exact ⟨h.symm, rfl, hnil⟩
  | n + 1, s, h, hlen => by
    have hne : s.move_history ≠ [] := by
      intro hnil; rw [hnil] at hlen; cases hlen
    obtain ⟨h1, h2, h3⟩ := undo_of_BRep gen s h hne
    have hlen1 : (execCmd gen s .undo).1.move_history.length = n := by
      rw [h1, List.length_dropLast, hlen]
      omega
    have ih := undoN_restores gen n (execCmd gen s .undo).1 h3 hlen1
    have hu : undoN gen (n + 1) s = undoN gen n (execCmd gen s .undo).1 := rfl
    rw [hu]
    exact ⟨ih.1, ih.2.1.trans h2, ih.2.2⟩

/-! ## Claim C9 -/

/-- C9: for every sequence of play commands executed from a fresh or
post-handicap state (empty move history, board equal to history base),
executing `undo` once per recorded move empties the history and leaves
the board exactly equal to the (unchanged) `history_base`.  Illegal play
commands leave the state untouched, so the sequence need not be
restricted to legal moves. -/
theorem C9_undo_returns_to_history_base (gen : Gen) (s : GtpState)
    (ps : List (Colour × Option Coords))
    (h0 : s.move_history = []) (h1 : s.board = s.history_base) :
    (undoN gen (applyPlays gen s ps).move_history.length
        (applyPlays gen s ps)).board =
      (undoN gen (applyPlays gen s ps).move_history.length
        (applyPlays gen s ps)).history_base ∧
    (undoN gen (applyPlays gen s ps).move_history.length
        (applyPlays gen s ps)).history_base = s.history_base ∧
    (undoN gen (applyPlays gen s ps).move_history.length
        (applyPlays gen s ps)).move_history = [] := by
  have hB : BRep s := by
    unfold BRep
    rw [h0, h1]
    simp [boardReplay]
  obtain ⟨hB1, hBase⟩ := BRep_applyPlays gen ps s hB
  obtain ⟨g1, g2, g3⟩ := undoN_restores gen
    (applyPlays gen s ps).move_history.length (applyPlays gen s ps) hB1 rfl
  exact ⟨g1, g2.trans hBase, g3⟩

/-- Witness for C9 at a concrete input: one stone and one pass played
from a fresh size-5 engine, then undone. -/
theorem C9_undo_returns_to_history_base_witness :
    (undoN genPass
        (applyPlays genPass exSt5 [(.b, some (0, 0)), (.w, none)]).move_history.length
        (applyPlays genPass exSt5 [(.b, some (0, 0)), (.w, none)])).board =
      (undoN genPass
        (applyPlays genPass exSt5 [(.b, some (0, 0)), (.w, none)]).move_history.length
        (applyPlays genPass exSt5 [(.b, some (0, 0)), (.w, none)])).history_base ∧
    (undoN genPass
        (applyPlays genPass exSt5 [(.b, some (0, 0)), (.w, none)]).move_history.length
        (applyPlays genPass exSt5 [(.b, some (0, 0)), (.w, none)])).history_base =
      exSt5.history_base ∧
    (undoN genPass
        (applyPlays genPass exSt5 [(.b, some (0, 0)), (.w, none)]).move_history.length
        (applyPlays genPass exSt5 [(.b, some (0, 0)), (.w, none)])).move_history = [] :=
  C9_undo_returns_to_history_base genPass exSt5 [(.b, some (0, 0)), (.w, none)]
    rfl rfl

/-! ## Claim C3 -/

/-- C3 (amended): every command other than `loadsgf`,
`set_free_handicap`, `place_free_handicap` and `undo` leaves the whole
engine state unchanged whenever it fails with a GTP error. -/
theorem C3_gtp_error_leaves_state_unchanged (gen : Gen) (s s1 : GtpState)
    (c : Cmd) (m : String) (hc : revertsOnError c = true)
    (h : execCmd gen s c = (s1, Resp.err m)) : s1 = s := by
  cases c with
  | set_free_handicap vs => cases hc
  | place_free_handicap n => cases hc
  | undo => cases hc
  | loadsgf file mn => cases hc
  | boardsize n =>
    simp only [execCmd, handle_boardsize] at h
    repeat' split at h
    all_goals simp only [Prod.mk.injEq] at h
    all_goals first
    | exact h.1.symm
    | simp at h
  | clear_board => simp [execCmd, handle_clear_board] at h
  | komi f =>
    simp only [execCmd, handle_komi] at h
    repeat' split at h
    all_goals simp only [Prod.mk.injEq] at h
    all_goals first
    | exact h.1.symm
    | simp at h
  | fixed_handicap n =>
    simp only [execCmd, handle_fixed_handicap] at h
    repeat' split at h
    all_goals simp only [Prod.mk.injEq] at h
    all_goals first
    | exact h.1.symm
    | simp at h
  | play colour v =>
    simp only [execCmd, handle_play] at h
    repeat' split at h
    all_goals simp only [Prod.mk.injEq] at h
    all_goals first
    | exact h.1.symm
    | simp at h
  | genmove colour =>
    simp only [execCmd, handle_genmove_common] at h
    repeat' split at h
    all_goals simp only [Prod.mk.injEq] at h
    all_goals first
    | exact h.1.symm
    | simp at h
  | genmove_claim colour =>
    simp only [execCmd, handle_genmove_common] at h
    repeat' split at h
    all_goals simp only [Prod.mk.injEq] at h
    all_goals first
    | exact h.1.symm
    | simp at h
  | reg_genmove colour =>
    simp only [execCmd, handle_genmove_common] at h
    repeat' split at h
    all_goals simp only [Prod.mk.injEq] at h
    all_goals first
    | exact h.1.symm
    | simp at h
  | showboard => simp [execCmd, handle_showboard] at h
  | explain_last_move =>
    simp only [execCmd, handle_explain_last_move] at h
    repeat' split at h
    all_goals simp only [Prod.mk.injEq] at h
    all_goals exact h.1.symm
  | savesgf argsOK =>
    simp only [execCmd, handle_savesgf] at h
    repeat' split at h
    all_goals simp only [Prod.mk.injEq] at h
    all_goals exact h.1.symm
  | time_left colour t st =>
    simp only [execCmd, handle_time_left] at h
    repeat' split at h
    all_goals simp only [Prod.mk.injEq] at h
    all_goals first
    | exact h.1.symm
    | simp at h
  | time_settings a b c => simp [execCmd, handle_time_settings] at h

/-- Witness for C3 at a concrete input: `boardsize 7` is rejected by a
size-5-only engine and leaves the state unchanged. -/
theorem C3_gtp_error_leaves_state_unchanged_witness :
    (execCmd genPass exSt5 (Cmd.boardsize 7)).1 = exSt5 :=
  C3_gtp_error_leaves_state_unchanged genPass exSt5
    (execCmd genPass exSt5 (Cmd.boardsize 7)).1 (Cmd.boardsize 7)
    "unacceptable size" rfl rfl

/-- Counterexample to C3 as stated: a failing `set_free_handicap` (second
vertex occupied by the first) raises the GTP error naming the vertex but
leaves the first stone on the board, so the state differs. -/
theorem C3_counterexample :
    (execCmd genPass exSt5 (Cmd.set_free_handicap [(1, 1), (1, 1)])).2 =
      Resp.err "engine error: B2 is occupied" ∧
    (execCmd genPass exSt5 (Cmd.set_free_handicap [(1, 1), (1, 1)])).1 ≠
      exSt5 := by
  exact ⟨rfl, by decide⟩

/-! ## Claim C5 -/

/-- The clamp computed by `set_komi` on a finite float is the floor
clamped to [-625, 625]. -/
theorem set_komi_finite (q : ℚ) :
    set_komi (.finite q) = .ok (max (-625) (min 625 ⌊q⌋)) := by
  simp only [set_komi, pyIntFloor]
  congr 1
  split_ifs <;> omega

/-- C5 (amended): `komi f` stores `clamp(floor f, -625, 625)` for every
finite `f` and the signed clamp bound for the two infinities; but a NaN
input raises an uncaught `ValueError` instead of storing a bound. -/
theorem C5_komi_clamp (gen : Gen) (s : GtpState) (q : ℚ) :
    execCmd gen s (.komi (.finite q)) =
      ({ s with komi := max (-625) (min 625 ⌊q⌋) }, .ok "") ∧
    execCmd gen s (.komi .posInf) = ({ s with komi := 625 }, .ok "") ∧
    execCmd gen s (.komi .negInf) = ({ s with komi := -625 }, .ok "") ∧
    execCmd gen s (.komi .nan) = (s, .crash) := by
  refine ⟨?_, rfl, rfl, rfl⟩
  show handle_komi s (.finite q) = _
  simp [handle_komi, set_komi_finite]

/-- Counterexample to C5 as stated: `set_komi` on NaN (a non-finite
input) raises `ValueError` — the command crashes instead of storing a
clamp bound. -/
theorem C5_counterexample :
    set_komi PyFloat.nan = Except.error PyErr.valueError ∧
    execCmd genPass exSt5 (Cmd.komi PyFloat.nan) = (exSt5, Resp.crash) :=
  ⟨rfl, rfl⟩

/-! ## Claim C8 -/

/-- C8: the `Game_state` assembled for `genmove`, `genmove_claim` and
`reg_genmove` carries `ko_point` equal to the current simple-ko point
exactly when the ban's owner is the colour to move, and `none` in every
other case. -/
theorem C8_genmove_ko_point (s : GtpState) (colour : Colour) (fr : Bool) :
    (s.simple_ko_player = some colour →
      (buildGameState s colour fr).ko_point = s.simple_ko_point) ∧
    (s.simple_ko_player ≠ some colour →
      (buildGameState s colour fr).ko_point = none) := by
  constructor <;> intro hp
  · unfold buildGameState
    dsimp only
    split_ifs with hif
    · rfl
    · cases hk : s.simple_ko_point with
      | none => rfl
      | some p => exact absurd ⟨by rw [hk]; rfl, hp⟩ hif
  · unfold buildGameState
    dsimp only
    split_ifs with hif
    · exact absurd hif.2 hp
    · rfl

/-- Witness for C8 at a concrete state: white's genmove sees the ko
point banned for white, black's does not. -/
theorem C8_genmove_ko_point_witness :
    (buildGameState c8st .w false).ko_point = some (1, 1) ∧
    (buildGameState c8st .b false).ko_point = none := by
  constructor
  · exact ((C8_genmove_ko_point c8st .w false).1 rfl).trans rfl
  · exact (C8_genmove_ko_point c8st .b false).2 (by decide)

/-! ## Claim C10 -/

/-- A left fold by `min` lands in the folded collection and bounds every
element from below. -/
theorem foldl_min_spec : ∀ (xs : List Nat) (x : Nat),
    xs.foldl min x ∈ x :: xs ∧ ∀ y ∈ x :: xs, xs.foldl min x ≤ y
  | [], x => by simp
  | y :: ys, x => by
    have ih := foldl_min_spec ys (min x y)
    constructor
    · rcases List.mem_cons.mp ih.1 with hm | hm
      · rcases min_choice x y with hxy | hxy
        · rw [List.foldl_cons, hm, hxy]
          exact List.mem_cons_self x (y :: ys)
        · rw [List.foldl_cons, hm, hxy]
          exact List.mem_cons_of_mem x (List.mem_cons_self y ys)
      · rw [List.foldl_cons]
        exact List.mem_cons_of_mem x (List.mem_cons_of_mem y hm)
    · intro z hz
      have hbound := ih.2 (min x y) (List.mem_cons_self (min x y) ys)
      rw [List.foldl_cons]
      rcases List.mem_cons.mp hz with hzx | hz1
      · rw [hzx]
        exact le_trans hbound (min_le_left x y)
      · rcases List.mem_cons.mp hz1 with hzy | hzys
        · rw [hzy]
          exact le_trans hbound (min_le_right x y)
        · exact ih.2 z (List.mem_cons_of_mem (min x y) hzys)

/-- C10: constructing a `Gtp_state` with a nonempty explicit size list
picks the minimum size (an element of the list that bounds every element
from below) and performs a full reset at it: empty board and history
base, empty move history, no handicap, no ko ban; with no size list the
initial board size is 19. -/
theorem C10_init :
    (∀ (l : List Nat), l ≠ [] →
      ∃ st, initState (some l) = .ok st ∧
        st.board_size ∈ l ∧ (∀ x ∈ l, st.board_size ≤ x) ∧
        st.acceptable_sizes = l ∧ st.komi = 0 ∧
        st.board = Board.empty st.board_size ∧
        st.history_base = Board.empty st.board_size ∧
        st.move_history = [] ∧ st.handicap = none ∧
        st.simple_ko_point = none ∧ st.simple_ko_player = none) ∧
    (∃ st19, initState none = .ok st19 ∧ st19.board_size = 19 ∧
      st19.board = Board.empty 19 ∧ st19.move_history = []) := by
  constructor
  · intro l hne
    cases l with
    | nil => exact absurd rfl hne
    | cons x xs =>
      refine ⟨freshState (x :: xs) (xs.foldl min x), rfl, ?_, ?_, rfl, rfl,
        rfl, rfl, rfl, rfl, rfl, rfl⟩
      · exact (foldl_min_spec xs x).1
      · exact (foldl_min_spec xs x).2
  · exact ⟨freshState [19] 19, rfl, rfl, rfl, rfl⟩

/-- Witness for C10 at a concrete size list. -/
theorem C10_init_witness :
    ∃ st, initState (some [9, 5, 13]) = .ok st ∧
      st.board_size ∈ [9, 5, 13] ∧ (∀ x ∈ [9, 5, 13], st.board_size ≤ x) ∧
      st.acceptable_sizes = [9, 5, 13] ∧ st.komi = 0 ∧
      st.board = Board.empty st.board_size ∧
      st.history_base = Board.empty st.board_size ∧
      st.move_history = [] ∧ st.handicap = none ∧
      st.simple_ko_point = none ∧ st.simple_ko_player = none :=
  C10_init.1 [9, 5, 13] (by decide)

/-! ## Claims C6 and C7 -/

/-- An occupied (hence in-range) point determines both bounds. -/
theorem Board.get_some_bounds {bd : Board} {r c : Nat} {cl : Colour}
    (h : bd.get r c = some cl) : r < bd.side ∧ c < bd.side := by
  by_cases hb : r < bd.side ∧ c < bd.side
  · exact hb
  · rw [Board.get, if_neg hb] at h
    cases h

/-- Playing on an occupied point always fails with the `ValueError`
condition. -/
theorem Board.play_occupied {bd : Board} {r c : Nat} {cl : Colour}
    (h : bd.get r c = some cl) (colour : Colour) :
    bd.play r c colour = .error .occupied := by
  have hb := Board.get_some_bounds h
  rw [Board.play, if_pos hb, h]

/-- Stones placed plus pass/resign iterations account for exactly the
iterations of a successful placement loop. -/
theorem pfh_len_skips (gen : Gen) (ts : Option (Int × Int × Int))
    (size : Nat) :
    ∀ (i : Nat) (bd : Board) (moves : List Coords) (fk : Int)
      (bd1 : Board) (ms : List Coords),
      pfhLoop gen ts size i bd moves fk = .ok bd1 ms →
      ms.length + pfhSkips gen ts size i bd fk = moves.length + i
  | 0, bd, moves, fk, bd1, ms, h => by
    simp only [pfhLoop] at h
    cases h
    simp [pfhSkips]
  | i + 1, bd, moves, fk, bd1, ms, h => by
    simp only [pfhLoop] at h
    simp only [pfhSkips]
    by_cases hpass : (gen (pfhGameState size bd fk ts) Colour.b).pass_move = true
    · rw [if_pos hpass] at h
      rw [if_pos hpass]
      have := pfh_len_skips gen ts size i bd moves fk bd1 ms h
      omega
    · rw [if_neg hpass] at h
      rw [if_neg hpass]
      by_cases hres : (gen (pfhGameState size bd fk ts) Colour.b).resign = true
      · rw [if_pos hres] at h
        rw [if_pos hres]
        have := pfh_len_skips gen ts size i bd moves 0 bd1 ms h
        omega
      · rw [if_neg hres] at h
        rw [if_neg hres]
        cases hmv : (gen (pfhGameState size bd fk ts) Colour.b).move with
        | none =>
          simp only [hmv] at h
          cases h
        | some rc =>
          obtain ⟨row, col⟩ := rc
          simp only [hmv] at h
          cases hplay : bd.play row col Colour.b with
          | ok pr =>
            obtain ⟨b1, k⟩ := pr
            simp only [hplay] at h
            simp only [hplay]
            have := pfh_len_skips gen ts size i b1 (moves ++ [(row, col)])
              (min (fk + 5) ((size * size : Int) - 2)) bd1 ms h
            simp only [List.length_append, List.length_cons,
              List.length_nil] at this
            omega
          | error e =>
            cases e <;> simp only [hplay] at h <;> cases h

/-- C6: a successful `place_free_handicap n` returns the vertices of the
stones it placed, and their count plus the pass/resign iterations equals
the effective request (`n`, or `n - 1` when `n` is the maximum), so at
most `n` stones are placed (at most `n - 1` at the maximum) and strictly
fewer whenever some iteration passed or resigned; a generator move to an
occupied point makes the loop, and hence the command, fail with the GTP
error naming the vertex. -/
theorem C6_place_free_handicap :
    (∀ (gen : Gen) (s : GtpState) (n : Nat) (s1 : GtpState) (out : String),
      execCmd gen s (.place_free_handicap n) = (s1, .ok out) →
      ∃ ms, out = joinVertices ms ∧
        ms.length + pfhSkips gen s.time_settings s.board_size
            (effectiveStones s.board_size n) s.board 0 =
          effectiveStones s.board_size n ∧
        ms.length ≤ effectiveStones s.board_size n ∧
        (n = max_free_handicap_for_board_size s.board_size →
          ms.length ≤ n - 1)) ∧
    (∀ (gen : Gen) (ts : Option (Int × Int × Int)) (size i : Nat)
        (bd : Board) (moves : List Coords) (fk : Int)
        (row col : Nat) (cl : Colour),
      (gen (pfhGameState size bd fk ts) Colour.b).pass_move = false →
      (gen (pfhGameState size bd fk ts) Colour.b).resign = false →
      (gen (pfhGameState size bd fk ts) Colour.b).move = some (row, col) →
      bd.get row col = some cl →
      pfhLoop gen ts size (i + 1) bd moves fk =
        .gtpErr bd ("engine error: tried to play " ++
          format_vertex (row, col))) ∧
    (∀ (gen : Gen) (s : GtpState) (n : Nat) (bd : Board) (m : String),
      2 ≤ n → n ≤ max_free_handicap_for_board_size s.board_size →
      s.board.is_empty = true →
      pfhLoop gen s.time_settings s.board_size
          (effectiveStones s.board_size n) s.board [] 0 = .gtpErr bd m →
      execCmd gen s (.place_free_handicap n) =
        ({ s with board := bd }, .err m)) := by
  refine ⟨?_, ?_, ?_⟩
  · intro gen s n s1 out h
    simp only [execCmd, handle_place_free_handicap] at h
    split at h
    · split at h
      · split at h
        · rename_i bd ms heq
          simp only [Prod.mk.injEq, Resp.ok.injEq] at h
          refine ⟨ms, h.2.symm, ?_, ?_, ?_⟩
          · have := pfh_len_skips gen s.time_settings s.board_size
              (effectiveStones s.board_size n) s.board [] 0 bd ms
              (by rw [← heq]; rfl)
            simpa using this
          · have := pfh_len_skips gen s.time_settings s.board_size
              (effectiveStones s.board_size n) s.board [] 0 bd ms
              (by rw [← heq]; rfl)
            simp only [List.length_nil, Nat.zero_add] at this
            omega
          · intro hmax
            have := pfh_len_skips gen s.time_settings s.board_size
              (effectiveStones s.board_size n) s.board [] 0 bd ms
              (by rw [← heq]; rfl)
            simp only [List.length_nil, Nat.zero_add] at this
            unfold effectiveStones at this
            rw [if_pos hmax] at this
            omega
        · simp at h
        · simp at h
      · simp at h
    · simp at h
  · intro gen ts size i bd moves fk row col cl hpass hres hmv hocc
    simp only [pfhLoop, hpass, hres, hmv, Bool.false_eq_true, if_false]
    rw [Board.play_occupied hocc]
  · intro gen s n bd m h1 h2 h3 h4
    simp only [execCmd, handle_place_free_handicap]
    rw [if_pos ⟨h1, h2⟩, if_pos h3]
    unfold effectiveStones at h4
    rw [h4]

/-- Witness for C6 at a concrete input: requesting two stones from an
always-passing generator succeeds with zero stones placed (both
iterations were passes). -/
theorem C6_place_free_handicap_witness :
    ∃ ms, "" = joinVertices ms ∧
      ms.length + pfhSkips genPass exSt5.time_settings exSt5.board_size
          (effectiveStones exSt5.board_size 2) exSt5.board 0 =
        effectiveStones exSt5.board_size 2 ∧
      ms.length ≤ effectiveStones exSt5.board_size 2 ∧
      (2 = max_free_handicap_for_board_size exSt5.board_size →
        ms.length ≤ 2 - 1) :=
  C6_place_free_handicap.1 genPass exSt5 2
    (execCmd genPass exSt5 (Cmd.place_free_handicap 2)).1 "" rfl

/-- C7 (amended): after a successful `place_free_handicap n`, the
`handicap` field equals the requested count after the maximum reduction
(`n`, or `n - 1` when `n` is the maximum) — not the number of stones
actually placed, which can be smaller when the generator passed or
resigned. -/
theorem C7_handicap_field (gen : Gen) (s : GtpState) (n : Nat)
    (s1 : GtpState) (out : String)
    (h : execCmd gen s (.place_free_handicap n) = (s1, .ok out)) :
    s1.handicap = some (effectiveStones s.board_size n) := by
  simp only [execCmd, handle_place_free_handicap] at h
  split at h
  · split at h
    · split at h
      · simp only [Prod.mk.injEq] at h
        rw [← h.1]
        rfl
      · simp at h
      · simp at h
    · simp at h
  · simp at h

/-- Witness for C7's amended claim at a concrete input. -/
theorem C7_handicap_field_witness :
    (execCmd genPass exSt5 (Cmd.place_free_handicap 2)).1.handicap =
      some (effectiveStones exSt5.board_size 2) :=
  C7_handicap_field genPass exSt5 2
    (execCmd genPass exSt5 (Cmd.place_free_handicap 2)).1 "" rfl

/-- Counterexample to C7 as stated: with an always-passing generator,
`place_free_handicap 2` succeeds, places zero stones (the board stays
empty), yet sets the handicap field to 2. -/
theorem C7_counterexample :
    (execCmd genPass exSt5 (Cmd.place_free_handicap 2)).2 = Resp.ok "" ∧
    (execCmd genPass exSt5 (Cmd.place_free_handicap 2)).1.handicap = some 2 ∧
    (execCmd genPass exSt5
        (Cmd.place_free_handicap 2)).1.board.list_occupied_points = [] :=
  ⟨rfl, rfl, rfl⟩

/-! ## Claim C1 -/

/-- A successful `reset_to_moves` only rebuilds the board and ko fields
and installs the given history; every other field is kept, and the new
board is the board replay of the moves from the history base. -/
theorem reset_to_moves_ok_fields (s0 : GtpState) (ms : List HistoryMove)
    (s1 : GtpState) (h : reset_to_moves s0 ms = .ok s1) :
    s1.komi = s0.komi ∧ s1.time_settings = s0.time_settings ∧
    s1.time_status_b = s0.time_status_b ∧
    s1.time_status_w = s0.time_status_w ∧
    s1.acceptable_sizes = s0.acceptable_sizes ∧
    s1.board_size = s0.board_size ∧ s1.handicap = s0.handicap ∧
    s1.history_base = s0.history_base ∧ s1.move_history = ms ∧
    boardReplay s0.history_base ms = some s1.board := by
  unfold reset_to_moves at h
  cases hr : rtmLoop s0.history_base s0.simple_ko_point none none ms with
  | ok t =>
    obtain ⟨b, k, p⟩ := t
    simp only [hr] at h
    cases h
    refine ⟨rfl, rfl, rfl, rfl, rfl, rfl, rfl, rfl, rfl, ?_⟩
    rw [boardReplay_eq_rtm ms s0.history_base s0.simple_ko_point none none, hr]
  | error e =>
    obtain ⟨b, sk, be⟩ := e
    simp only [hr] at h
    cases h

/-- A failing `reset_to_moves` means the board replay of the moves from
the history base fails, and the partially mutated state it carries keeps
every field except the board and the instance ko point. -/
theorem reset_to_moves_err_fields (s0 : GtpState) (ms : List HistoryMove)
    (sp : GtpState) (e : BoardErr)
    (h : reset_to_moves s0 ms = .error (sp, e)) :
    sp.komi = s0.komi ∧ sp.time_settings = s0.time_settings ∧
    sp.time_status_b = s0.time_status_b ∧
    sp.time_status_w = s0.time_status_w ∧
    sp.acceptable_sizes = s0.acceptable_sizes ∧
    sp.board_size = s0.board_size ∧ sp.handicap = s0.handicap ∧
    sp.history_base = s0.history_base ∧
    sp.move_history = s0.move_history ∧
    sp.simple_ko_player = s0.simple_ko_player ∧
    boardReplay s0.history_base ms = none := by
  unfold reset_to_moves at h
  cases hr : rtmLoop s0.history_base s0.simple_ko_point none none ms with
  | ok t =>
    obtain ⟨b, k, p⟩ := t
    simp only [hr] at h
    cases h
  | error t =>
    obtain ⟨b, sk, be⟩ := t
    simp only [hr, Except.error.injEq, Prod.mk.injEq] at h
    obtain ⟨hsp, _⟩ := h
    rw [← hsp]
    refine ⟨rfl, rfl, rfl, rfl, rfl, rfl, rfl, rfl, rfl, rfl, ?_⟩
    rw [boardReplay_eq_rtm ms s0.history_base s0.simple_ko_point none none, hr]

/-- C1 (amended): when a loadsgf reaches the replay stage (readable file,
acceptable size, good komi and setup) and the replay of the parsed moves
fails, the previous `history_base` and `move_history` are restored and
komi, handicap, time and size-list fields are untouched, but `board_size`
keeps the SGF's size and the board (with the ko fields) is rebuilt by
replaying the restored history; the error is "bad move in file", and the
distinct "bad move in file and corrupt history" variant is reported
exactly when the restoring replay itself fails. -/
theorem C1_loadsgf_atomicity (gen : Gen) (s : GtpState) (d : SgfData)
    (mn : Option Int) (kf : PyFloat) (sb : Board)
    (rm : List (Colour × Option Coords)) (sp : GtpState)
    (hmem : d.size ∈ s.acceptable_sizes)
    (hk : d.komi = .ok kf)
    (hs : d.setup = .ok (sb, rm))
    (hfail : reset_to_moves
        (set_history_base { s with board_size := d.size } sb)
        (sgfHistory rm mn) = .error (sp, .occupied)) :
    (∀ s3, reset_to_moves (set_history_base sp s.history_base)
        s.move_history = .ok s3 →
      execCmd gen s (.loadsgf (.parsed d) mn) =
        (s3, .err "bad move in file") ∧
      s3.history_base = s.history_base ∧
      s3.move_history = s.move_history ∧
      s3.komi = s.komi ∧ s3.handicap = s.handicap ∧
      s3.time_settings = s.time_settings ∧
      s3.time_status_b = s.time_status_b ∧
      s3.time_status_w = s.time_status_w ∧
      s3.acceptable_sizes = s.acceptable_sizes ∧
      s3.board_size = d.size ∧
      boardReplay s.history_base s.move_history = some s3.board) ∧
    (∀ sp2, reset_to_moves (set_history_base sp s.history_base)
        s.move_history = .error (sp2, .occupied) →
      execCmd gen s (.loadsgf (.parsed d) mn) =
        (sp2, .err "bad move in file and corrupt history") ∧
      boardReplay s.history_base s.move_history = none) := by
  obtain ⟨k0, t0, tb0, tw0, a0, bs0, h0, hb0, mh0, kp0, br0⟩ :=
    reset_to_moves_err_fields _ _ _ _ hfail
  constructor
  · intro s3 hrestore
    obtain ⟨k1, t1, tb1, tw1, a1, bs1, h1, hb1, mh1, br1⟩ :=
      reset_to_moves_ok_fields _ _ _ hrestore
    refine ⟨?_, hb1, mh1, k1.trans k0, h1.trans h0, t1.trans t0,
      tb1.trans tb0, tw1.trans tw0, a1.trans a0, bs1.trans bs0, br1⟩
    simp only [execCmd, handle_loadsgf]
    rw [if_pos hmem]
    simp only [hk, hs, hfail, hrestore]
  · intro sp2 hrestore
    obtain ⟨_, _, _, _, _, _, _, _, _, _, br2⟩ :=
      reset_to_moves_err_fields _ _ _ _ hrestore
    refine ⟨?_, br2⟩
    simp only [execCmd, handle_loadsgf]
    rw [if_pos hmem]
    simp only [hk, hs, hfail, hrestore]

/-- Witness for C1's amended claim at the concrete failing load. -/
theorem C1_loadsgf_atomicity_witness :
    execCmd genPass exSt59 (Cmd.loadsgf (SgfFile.parsed c1data) none) =
      (c1s3, Resp.err "bad move in file") ∧
    c1s3.history_base = exSt59.history_base ∧
    c1s3.move_history = exSt59.move_history ∧
    c1s3.komi = exSt59.komi ∧ c1s3.handicap = exSt59.handicap ∧
    c1s3.time_settings = exSt59.time_settings ∧
    c1s3.time_status_b = exSt59.time_status_b ∧
    c1s3.time_status_w = exSt59.time_status_w ∧
    c1s3.acceptable_sizes = exSt59.acceptable_sizes ∧
    c1s3.board_size = c1data.size ∧
    boardReplay exSt59.history_base exSt59.move_history = some c1s3.board :=
  (C1_loadsgf_atomicity genPass exSt59 c1data none (.finite 0) c1sb
    [(.b, some (0, 0))] c1sp (by decide) rfl rfl rfl).1 c1s3 rfl

/-- Counterexample to C1 as stated: the failing load leaves the engine
with `board_size` 9 while everything else is the size-5 fresh state, so
the state is not "exactly as it was before the command". -/
theorem C1_counterexample :
    execCmd genPass exSt59 (Cmd.loadsgf (SgfFile.parsed c1data) none) =
      (c1s3, Resp.err "bad move in file") ∧
    c1s3 ≠ exSt59 ∧ c1s3.board_size = 9 ∧ exSt59.board_size = 5 :=
  ⟨rfl, by decide, rfl, rfl⟩

/-! ## Claim C2 -/

/-- C2 (the code violates the invariant): after the `c2cmds` sequence —
eight plays building a ko capture, a pass, one more play, and an `undo` —
the engine's `simple_ko_point` is the stale (1, 1) left by
`reset_to_moves` (whose pass branch assigns the instance attribute
instead of the loop-local variable), while replaying `history_base`
through `move_history` with the live play semantics (pass clears the ko
ban) reproduces the board but yields no ko point. -/
theorem C2_ko_replay_divergence :
    initState (some [5]) = Except.ok exSt5 ∧
    execList genPass exSt5 c2cmds = c2finalLit ∧
    c2finalLit.simple_ko_point = some (1, 1) ∧
    c2finalLit.simple_ko_player = some Colour.w ∧
    liveReplay c2finalLit.history_base none none c2finalLit.move_history =
      some (c2finalLit.board, none, some Colour.w) :=
  ⟨rfl, rfl, rfl, rfl, rfl⟩

/-! ## Claim C4 -/

/-- Finding a newline in an appended byte sequence: the position in the
first part wins; otherwise positions in the second part are shifted. -/
theorem findNewline_append : ∀ (a b : List Char),
    findNewline (a ++ b) =
      match findNewline a with
      | some i => some i
      | none => (findNewline b).map (fun j => j + a.length)
  | [], b => by
    cases hb : findNewline b <;> simp [findNewline, hb]
  | c :: cs, b => by
    simp only [List.cons_append, findNewline, List.append_eq]
    by_cases hc : c = '\n'
    · simp [hc]
    · simp only [hc, if_false]
      rw [findNewline_append cs b]
      cases ha : findNewline cs with
      | some i => simp [ha]
      | none =>
        cases hb : findNewline b with
        | none => simp [ha, hb]
        | some j => simp [ha, hb, List.length_cons, Nat.add_assoc]

/-- After end-of-stream with no buffered newline, every call returns the
(unconsumed) buffer and leaves the state unchanged. -/
theorem runCalls_eof : ∀ (k : Nat) (buf : List Char),
    findNewline buf = none →
    runCalls k [] buf true = List.replicate k buf
  | 0, _, _ => rfl
  | k + 1, buf, h => by
    have h1 : grlAux [] buf true = some (buf, buf, [], true) := by
      simp [grlAux, h]
    simp only [runCalls, h1]
    rw [runCalls_eof k buf h]
    simp [List.replicate_succ]

/-- One `get_response_line` call when the stream still holds a newline:
it returns the next complete line of the total byte sequence and leaves a
state holding exactly the remaining bytes. -/
theorem grlAux_step_some : ∀ (chunks : List (List Char)) (buf : List Char)
    (i : Nat), (∀ ch ∈ chunks, ch ≠ []) →
    findNewline (buf ++ chunks.flatten) = some i →
    ∃ buf1 chunks1,
      grlAux (chunks ++ [[]]) buf false =
        some ((buf ++ chunks.flatten).take (i + 1), buf1,
          chunks1 ++ [[]], false) ∧
      buf1 ++ chunks1.flatten = (buf ++ chunks.flatten).drop (i + 1) ∧
      (∀ ch ∈ chunks1, ch ≠ [])
  | [], buf, i, _, hf => by
    simp only [List.flatten_nil, List.append_nil] at hf ⊢
    refine ⟨buf.drop (i + 1), [], ?_, by simp, by simp⟩
    simp [grlAux, hf]
  | c :: cs, buf, i, hne, hf => by
    cases hb : findNewline buf with
    | some j =>
      have happ := findNewline_append buf ((c :: cs).flatten)
      rw [hb, hf] at happ
      have hij : i = j := by
        simpa using happ
      subst hij
      have hlen : i + 1 ≤ buf.length := findNewline_lt hb
      refine ⟨buf.drop (i + 1), c :: cs, ?_, ?_, hne⟩
      · simp [grlAux, hb, List.take_append_of_le_length hlen,
          List.drop_append_of_le_length hlen]
      · rw [List.drop_append_of_le_length hlen]
    | none =>
      have hT : (buf ++ c) ++ cs.flatten = buf ++ (c :: cs).flatten := by
        simp [List.append_assoc]
      have hne1 : ∀ ch ∈ cs, ch ≠ [] :=
        fun ch hch => hne ch (List.mem_cons_of_mem _ hch)
      have hf1 : findNewline ((buf ++ c) ++ cs.flatten) = some i := by
        rw [hT]
        exact hf
      obtain ⟨buf1, chunks1, hgrl, hrest, hne2⟩ :=
        grlAux_step_some cs (buf ++ c) i hne1 hf1
      have hcne : c ≠ [] := hne c (List.mem_cons_self c cs)
      have hstep : grlAux ((c :: cs) ++ [[]]) buf false =
          grlAux (cs ++ [[]]) (buf ++ c) false := by
        simp [grlAux, hb, hcne]
      refine ⟨buf1, chunks1, ?_, ?_, hne2⟩
      · rw [hstep, hgrl, hT]
      · rw [← hT]
        exact hrest

/-- One `get_response_line` call when no newline remains: all chunks are
drained, end-of-stream is recorded, and the whole remainder is returned
without being consumed. -/
theorem grlAux_step_none : ∀ (chunks : List (List Char)) (buf : List Char),
    (∀ ch ∈ chunks, ch ≠ []) →
    findNewline (buf ++ chunks.flatten) = none →
    grlAux (chunks ++ [[]]) buf false =
      some (buf ++ chunks.flatten, buf ++ chunks.flatten, [], true)
  | [], buf, _, hf => by
    simp only [List.flatten_nil, List.append_nil] at hf ⊢
    simp [grlAux, hf]
  | c :: cs, buf, hne, hf => by
    cases hb : findNewline buf with
    | some j =>
      have happ := findNewline_append buf ((c :: cs).flatten)
      rw [hb, hf] at happ
      cases happ
    | none =>
      have hT : (buf ++ c) ++ cs.flatten = buf ++ (c :: cs).flatten := by
        simp [List.append_assoc]
      have hne1 : ∀ ch ∈ cs, ch ≠ [] :=
        fun ch hch => hne ch (List.mem_cons_of_mem _ hch)
      have hf1 : findNewline ((buf ++ c) ++ cs.flatten) = none := by
        rw [hT]
        exact hf
      have hcne : c ≠ [] := hne c (List.mem_cons_self c cs)
      have hstep : grlAux ((c :: cs) ++ [[]]) buf false =
          grlAux (cs ++ [[]]) (buf ++ c) false := by
        simp [grlAux, hb, hcne]
      rw [hstep, grlAux_step_none cs (buf ++ c) hne1 hf1, hT]

/-- The outputs of `k` successive `get_response_line()` calls on a
channel that will deliver the given chunks and then end-of-stream: first
the complete newline-terminated lines of the byte stream, then the
unterminated remainder repeated on every further call. -/
theorem runCalls_spec : ∀ (k : Nat) (chunks : List (List Char))
    (buf : List Char), (∀ ch ∈ chunks, ch ≠ []) →
    runCalls k (chunks ++ [[]]) buf false =
      (specLines (buf ++ chunks.flatten)).1.take k ++
        List.replicate (k - (specLines (buf ++ chunks.flatten)).1.length)
          (specLines (buf ++ chunks.flatten)).2
  | 0, chunks, buf, _ => by simp [runCalls]
  | k + 1, chunks, buf, hne => by
    cases hT : findNewline (buf ++ chunks.flatten) with
    | some i =>
      have hspec : specLines (buf ++ chunks.flatten) =
          ((buf ++ chunks.flatten).take (i + 1) ::
            (specLines ((buf ++ chunks.flatten).drop (i + 1))).1,
           (specLines ((buf ++ chunks.flatten).drop (i + 1))).2) := by
        rw [specLines]
        split
        · rename_i heq
          rw [hT] at heq
          cases heq
        · rename_i j heq
          rw [hT] at heq
          cases heq
          rfl
      obtain ⟨buf1, chunks1, hgrl, hrest, hne1⟩ :=
        grlAux_step_some chunks buf i hne hT
      simp only [runCalls, hgrl]
      rw [runCalls_spec k chunks1 buf1 hne1, hrest, hspec]
      simp [List.length_cons, Nat.succ_sub_succ]
    | none =>
      have hspec : specLines (buf ++ chunks.flatten) =
          ([], buf ++ chunks.flatten) := by
        rw [specLines]
        split
        · rfl
        · rename_i j heq
          rw [hT] at heq
          cases heq
      simp only [runCalls, grlAux_step_none chunks buf hne hT]
      rw [runCalls_eof k (buf ++ chunks.flatten) hT, hspec]
      simp [List.replicate_succ]

/-- C4 (amended): successive `get_response_line()` calls return exactly
the peer's bytes split only on newline (each complete line keeps its
terminating newline); once end-of-stream is reached the unterminated
remainder is returned by *every* later call — it is never consumed, so
later calls return the empty string only when the remainder is empty. -/
theorem C4_response_lines (chunks : List (List Char)) (k : Nat)
    (hne : ∀ ch ∈ chunks, ch ≠ []) :
    runCalls k (chunks ++ [[]]) [] false =
      (specLines chunks.flatten).1.take k ++
        List.replicate (k - (specLines chunks.flatten).1.length)
          (specLines chunks.flatten).2 := by
  have h := runCalls_spec k chunks [] hne
  simpa using h

/-- Witness for C4's amended claim at a concrete stream: the chunk
"ab\nc" followed by end-of-stream, read three times. -/
theorem C4_response_lines_witness :
    runCalls 3 ([['a', 'b', '\n', 'c']] ++ [[]]) [] false =
      (specLines ([['a', 'b', '\n', 'c']] : List (List Char)).flatten).1.take 3 ++
        List.replicate
          (3 - (specLines ([['a', 'b', '\n', 'c']] :
            List (List Char)).flatten).1.length)
          (specLines ([['a', 'b', '\n', 'c']] : List (List Char)).flatten).2 :=
  C4_response_lines [['a', 'b', '\n', 'c']] 3 (by decide)

/-- Counterexample to C4 as stated: a stream ending in the unterminated
remainder "abc" yields "abc" from the first call *and again* from the
second call — the remainder is returned repeatedly, not exactly once with
empty strings thereafter. -/
theorem C4_counterexample :
    runCalls 2 ([['a', 'b', 'c']] ++ [[]]) [] false =
      [['a', 'b', 'c'], ['a', 'b', 'c']] ∧
    (['a', 'b', 'c'] : List Char) ≠ [] :=
  ⟨rfl, by decide⟩

end Gomill
